import Mathlib

/-!
Verification of the LUIT-CleanWater aggregation, escalation and geofenced
alert engine.  The repository ships the React submission form
(`ReportingPage`, `src/unnamed/part_000`) and the Leaflet hotspot map
(`src/frontend/src/components/HotspotMap.jsx`); the Flask backend that holds
the severity rule, the escalation coordinator, the status propagator and the
haversine proximity query is documented in `src/SYSTEM_ANALYSIS.md` but its
code is not part of the source tree, so those components are modelled here
from the specification and proved against that model.  The two shipped
components are translated directly from their JSX sources.
-/

namespace CleanWater

/-- Status of an individual contamination report
(`reported → contaminated → cleaned`). -/
inductive RStatus where
  | reported
  | contaminated
  | cleaned
deriving DecidableEq, Repr

/-- Status of a lab assignment
(`pending_lab_visit → solution_uploaded → cleaned`). -/
inductive AStatus where
  | pending_lab_visit
  | solution_uploaded
  | cleaned
deriving DecidableEq, Repr

/-- Severity buckets computed from the number of active reports grouped
under one location key. -/
inductive Severity where
  | none
  | mild
  | medium
  | severe
deriving DecidableEq, Repr

/-- Provenance tag of a report, audit only. -/
inductive Channel where
  | web
  | sms
deriving DecidableEq, Repr

/-- Error taxonomy of the core engine (spec section 7). -/
inductive Err where
  | validationError (missing : List String)
  | alreadyEscalated
  | invalidReportSet
  | invalidTransition
  | invalidCoordinate
  | invalidRadius
deriving DecidableEq, Repr

/-- Modelled from the spec: the severity step function of the Aggregator
(backend code absent from the source tree; thresholds are documented both in
spec section 4.1 and in `src/SYSTEM_ANALYSIS.md` lines 45-49): 0-4 reports
map to `none`, 5-9 to `mild`, 10-19 to `medium`, 20 and more to `severe`. -/
def severity (n : Nat) : Severity :=
  if n < 5 then Severity.none
  else if n < 10 then Severity.mild
  else if n < 20 then Severity.medium
  else Severity.severe

/-- Modelled from the spec: the persisted record shape of a report
(spec section 3, backend store absent from the source tree). -/
structure Report where
  id : Nat
  locationKey : String
  district : String
  localityName : String
  problemType : String
  sourceType : String
  description : Option String
  status : RStatus
  active : Bool
  submittedAt : Nat
  upvotes : Nat
  verified : Bool
  channel : Channel
deriving DecidableEq, Repr

/-- Modelled from the spec: the persisted record shape of a lab assignment
(spec section 3, backend store absent from the source tree).  Coordinates are
nullable real-number latitude/longitude pairs. -/
structure Assignment where
  id : Nat
  locationKey : String
  reportIds : List Nat
  severity : Severity
  coordinates : Option (Real × Real)
  status : AStatus
  createdAt : Nat
  solutionUploadedAt : Option Nat
  confirmedCleanAt : Option Nat
  notes : String

/-- Modelled from the spec: the abstract document store holding both
collections together with a fresh-id counter and a clock used for
timestamps. -/
structure Store where
  reports : List Report
  assignments : List Assignment
  nextId : Nat
  now : Nat

/-- The empty initial store. -/
def initStore : Store := ⟨[], [], 0, 0⟩

/-- Modelled from the spec: names of the required submission fields that are
absent from a `submit` call (spec section 6; the backend validation code is
absent from the source tree). -/
def requiredMissing (p st lk d ln : Option String) : List String :=
  (if p.isNone then ["problemType"] else []) ++
  (if st.isNone then ["sourceType"] else []) ++
  (if lk.isNone then ["locationKey"] else []) ++
  (if d.isNone then ["district"] else []) ++
  (if ln.isNone then ["localityName"] else [])

/-- Modelled from the spec: the report record a successful `submit` call
creates, with `status = reported`, `active = true` and a fresh id (spec
sections 3 and 6, backend code absent from the source tree). -/
def newReport (s : Store) (p st lk d ln desc : Option String) (ch : Channel) : Report :=
  ⟨s.nextId, lk.getD "", d.getD "", ln.getD "", p.getD "", st.getD "",
    desc, RStatus.reported, true, s.now, 0, false, ch⟩

/-- Modelled from the spec: `submit` of the Report Store (spec section 6,
backend code absent from the source tree).  It validates that the required
fields are present, failing with a `ValidationError` that lists the missing
field names, and otherwise appends the one new report.  The description is
optional. -/
def submit (s : Store) (p st lk d ln desc : Option String) (ch : Channel) :
    Except Err (Store × Report) :=
  if requiredMissing p st lk d ln = [] then
    Except.ok
      ({ s with reports := s.reports ++ [newReport s p st lk d ln desc ch],
                nextId := s.nextId + 1 },
       newReport s p st lk d ln desc ch)
  else Except.error (Err.validationError (requiredMissing p st lk d ln))

/-- Store reached by a `submit` call: the new store on success, the old store
unchanged on error. -/
def submitStore (s : Store) (p st lk d ln desc : Option String) (ch : Channel) : Store :=
  match submit s p st lk d ln desc ch with
  | Except.ok (s', _) => s'
  | Except.error _ => s

/-- Modelled from the spec: the single-report update of the Status
Propagator (spec section 4.5, backend code absent from the source tree).
A report is updated when it is listed and not already terminal, with the
`active` flag recomputed from the new status; otherwise it is skipped
unchanged. -/
def bulkUpd (ids : List Nat) (st : RStatus) (r : Report) : Report :=
  if r.id ∈ ids ∧ r.status ≠ RStatus.cleaned then
    { r with status := st, active := decide (st ≠ RStatus.cleaned) }
  else r

/-- Modelled from the spec: `applyBulkStatus` of the Status Propagator
(spec section 4.5, backend code absent from the source tree).  Every listed,
non-terminal report is updated exactly once; ids that match no report and
reports already terminal are skipped without aborting; the second component
is the count of reports actually updated. -/
def applyBulkStatus (rs : List Report) (ids : List Nat) (st : RStatus) :
    List Report × Nat :=
  (rs.map (bulkUpd ids st),
   (rs.filter (fun r => decide (r.id ∈ ids) && decide (r.status ≠ RStatus.cleaned))).length)

/-- Whether the store already holds a non-cleaned assignment for a location
key. -/
def hasActiveAssignment (s : Store) (key : String) : Bool :=
  s.assignments.any (fun a => decide (a.locationKey = key) && decide (a.status ≠ AStatus.cleaned))

/-- Whether a report-id set is a non-empty duplicate-free subset of the
currently active reports sharing the given location key. -/
def validReportSet (s : Store) (key : String) (ids : List Nat) : Bool :=
  decide (ids ≠ []) && decide ids.Nodup &&
  ids.all (fun i => s.reports.any (fun r =>
    decide (r.id = i) && r.active && decide (r.locationKey = key)))

/-- Modelled from the spec: `escalate` of the Escalation Coordinator (spec
section 4.2, backend code absent from the source tree).  A location already
under an active assignment is rejected with `AlreadyEscalated`; an invalid
report set is rejected with `InvalidReportSet`; otherwise one assignment is
created with `status = pending_lab_visit`, snapshotting the report ids and
the severity, and the Status Propagator marks every referenced report
`contaminated`. -/
def escalate (s : Store) (key : String) (ids : List Nat) (sev : Severity)
    (coords : Option (Real × Real)) (nts : String) : Except Err Store :=
  if hasActiveAssignment s key then Except.error Err.alreadyEscalated
  else if validReportSet s key ids then
    Except.ok
      { s with
        reports := (applyBulkStatus s.reports ids RStatus.contaminated).1,
        assignments := s.assignments ++
          [⟨s.nextId, key, ids, sev, coords, AStatus.pending_lab_visit,
            s.now, none, none, nts⟩],
        nextId := s.nextId + 1 }
  else Except.error Err.invalidReportSet

/-- Store reached by an `escalate` call: the new store on success, the old
store unchanged on error. -/
def escalateStore (s : Store) (key : String) (ids : List Nat) (sev : Severity)
    (coords : Option (Real × Real)) (nts : String) : Store :=
  match escalate s key ids sev coords nts with
  | Except.ok s' => s'
  | Except.error _ => s

/-- Conditional write of the solution-upload transition: an assignment moves
to `solution_uploaded` only from `pending_lab_visit`, so the timestamp is
settable only from the prior state. -/
def uploadUpd (aid t : Nat) (b : Assignment) : Assignment :=
  if decide (b.id = aid) && decide (b.status = AStatus.pending_lab_visit) then
    { b with status := AStatus.solution_uploaded, solutionUploadedAt := some t }
  else b

/-- Conditional write of the confirm-clean transition: an assignment moves
to `cleaned` only from `solution_uploaded`. -/
def confirmUpd (aid t : Nat) (b : Assignment) : Assignment :=
  if decide (b.id = aid) && decide (b.status = AStatus.solution_uploaded) then
    { b with status := AStatus.cleaned, confirmedCleanAt := some t }
  else b

/-- Modelled from the spec: `uploadSolution` (spec sections 4.3 and 6,
backend code absent from the source tree).  Only the transition
`pending_lab_visit → solution_uploaded` is permitted; any other starting
state fails with `InvalidTransition`, and the timestamp is settable only
from the prior state. -/
def uploadSolution (s : Store) (aid : Nat) (sd dr : String) : Except Err Store :=
  match s.assignments.find? (fun a => decide (a.id = aid)) with
  | none => Except.error (Err.validationError ["assignmentId"])
  | some a =>
    if a.status = AStatus.pending_lab_visit then
      Except.ok { s with assignments := s.assignments.map (uploadUpd aid s.now) }
    else Except.error Err.invalidTransition

/-- Modelled from the spec: `confirmClean` (spec sections 4.3 and 6, backend
code absent from the source tree).  Only the transition
`solution_uploaded → cleaned` is permitted; on success the Status Propagator
sets every referenced report to `cleaned`. -/
def confirmClean (s : Store) (aid : Nat) : Except Err Store :=
  match s.assignments.find? (fun a => decide (a.id = aid)) with
  | none => Except.error (Err.validationError ["assignmentId"])
  | some a =>
    if a.status = AStatus.solution_uploaded then
      Except.ok
        { s with
          assignments := s.assignments.map (confirmUpd aid s.now),
          reports := (applyBulkStatus s.reports a.reportIds RStatus.cleaned).1 }
    else Except.error Err.invalidTransition

/-- A group of active reports sharing one location key, as produced by the
Aggregator. -/
structure Group where
  locationKey : String
  count : Nat
  reports : List Report
  severity : Severity
deriving DecidableEq, Repr

/-- Modelled from the spec: `computeGroups` of the Aggregator (spec section
4.1, backend code absent from the source tree).  Active reports (status
`reported` or `contaminated`) are partitioned by location key; reports with
a missing location key are counted nowhere. -/
def computeGroups (reports : List Report) : List Group :=
  let rs := reports.filter (fun r =>
    (decide (r.status = RStatus.reported) || decide (r.status = RStatus.contaminated)) &&
    decide (r.locationKey ≠ ""))
  ((rs.map Report.locationKey).dedup).map (fun k =>
    let members := rs.filter (fun r => decide (r.locationKey = k))
    ⟨k, members.length, members, severity members.length⟩)

/-- Modelled from the spec: `listGroups` (spec section 6, backend code
absent from the source tree), optionally restricted to one district. -/
def listGroups (s : Store) (district : Option String) : List Group :=
  computeGroups (s.reports.filter (fun r =>
    match district with
    | none => true
    | some d => decide (r.district = d)))

/-- Modelled from the spec: the reachable store states, namely everything
the empty store can evolve into through successful core mutations (the
backend that drives these mutations is absent from the source tree). -/
inductive Reachable : Store → Prop where
  | init : Reachable initStore
  | submit_step {s s' : Store} {p st lk d ln desc : Option String}
      {ch : Channel} {r : Report} :
      Reachable s → submit s p st lk d ln desc ch = Except.ok (s', r) → Reachable s'
  | escalate_step {s s' : Store} {key : String} {ids : List Nat} {sev : Severity}
      {coords : Option (Real × Real)} {nts : String} :
      Reachable s → escalate s key ids sev coords nts = Except.ok s' → Reachable s'
  | upload_step {s s' : Store} {aid : Nat} {sd dr : String} :
      Reachable s → uploadSolution s aid sd dr = Except.ok s' → Reachable s'
  | confirm_step {s s' : Store} {aid : Nat} :
      Reachable s → confirmClean s aid = Except.ok s' → Reachable s'

/-- Number of non-cleaned assignments a store holds for a location key. -/
def countActive (s : Store) (key : String) : Nat :=
  (s.assignments.filter (fun a =>
    decide (a.locationKey = key) && decide (a.status ≠ AStatus.cleaned))).length

/-- The denormalized `active` flag agrees with the status of every report in
the store: `active` holds exactly when the report is not `cleaned`. -/
def ReportsConsistent (s : Store) : Prop :=
  ∀ r ∈ s.reports, r.active = true ↔ r.status ≠ RStatus.cleaned

/-- Structural invariant of reachable stores: ids are bounded by the fresh
counter and duplicate-free, assignments only reference already escalated
(hence non-`reported`) reports, and each location key has at most one
non-cleaned assignment. -/
structure StoreInv (s : Store) : Prop where
  rIdLt : ∀ r ∈ s.reports, r.id < s.nextId
  aIdLt : ∀ a ∈ s.assignments, a.id < s.nextId
  refLt : ∀ a ∈ s.assignments, ∀ i ∈ a.reportIds, i < s.nextId
  rNodup : (s.reports.map Report.id).Nodup
  aNodup : (s.assignments.map Assignment.id).Nodup
  refNotRep : ∀ a ∈ s.assignments, ∀ r ∈ s.reports,
    r.id ∈ a.reportIds → r.status ≠ RStatus.reported
  oneActive : ∀ key : String, countActive s key ≤ 1

/-- One legal step (or stagnation) of the report state machine. -/
def rAdv (a b : RStatus) : Prop :=
  a = b ∨ (a = RStatus.reported ∧ b = RStatus.contaminated) ∨
    (a = RStatus.contaminated ∧ b = RStatus.cleaned)

/-- One legal step (or stagnation) of the assignment state machine. -/
def aAdv (a b : AStatus) : Prop :=
  a = b ∨ (a = AStatus.pending_lab_visit ∧ b = AStatus.solution_uploaded) ∨
    (a = AStatus.solution_uploaded ∧ b = AStatus.cleaned)

/-- The reports of the old store positionally advance along the report state
machine in the new store (new reports may be appended at the end). -/
def reportsAdvance (old new : List Report) : Prop :=
  old.length ≤ new.length ∧
  ∀ i (h1 : i < old.length) (h2 : i < new.length),
    rAdv (old.get ⟨i, h1⟩).status (new.get ⟨i, h2⟩).status

/-- The assignments of the old store positionally advance along the
assignment state machine in the new store (new assignments may be appended
at the end). -/
def assignsAdvance (old new : List Assignment) : Prop :=
  old.length ≤ new.length ∧
  ∀ i (h1 : i < old.length) (h2 : i < new.length),
    aAdv (old.get ⟨i, h1⟩).status (new.get ⟨i, h2⟩).status

/-- C4's property at one store: every successful mutation only advances both
state machines forward step by step, backward or state-skipping transition
attempts fail with `InvalidTransition`, each assignment transition fires at
most once, and `cleaned` is terminal for both machines. -/
def TransitionDiscipline (s : Store) : Prop :=
  (∀ p st lk d ln desc ch s' r, submit s p st lk d ln desc ch = Except.ok (s', r) →
    reportsAdvance s.reports s'.reports ∧ assignsAdvance s.assignments s'.assignments ∧
    r.status = RStatus.reported) ∧
  (∀ key ids sev coords nts s', escalate s key ids sev coords nts = Except.ok s' →
    reportsAdvance s.reports s'.reports ∧ assignsAdvance s.assignments s'.assignments) ∧
  (∀ aid sd dr s', uploadSolution s aid sd dr = Except.ok s' →
    reportsAdvance s.reports s'.reports ∧ assignsAdvance s.assignments s'.assignments) ∧
  (∀ aid s', confirmClean s aid = Except.ok s' →
    reportsAdvance s.reports s'.reports ∧ assignsAdvance s.assignments s'.assignments) ∧
  (∀ aid sd dr a, s.assignments.find? (fun b => decide (b.id = aid)) = some a →
    a.status ≠ AStatus.pending_lab_visit →
    uploadSolution s aid sd dr = Except.error Err.invalidTransition) ∧
  (∀ aid a, s.assignments.find? (fun b => decide (b.id = aid)) = some a →
    a.status ≠ AStatus.solution_uploaded →
    confirmClean s aid = Except.error Err.invalidTransition) ∧
  (∀ aid sd dr s' sd' dr', uploadSolution s aid sd dr = Except.ok s' →
    uploadSolution s' aid sd' dr' = Except.error Err.invalidTransition) ∧
  (∀ aid s', confirmClean s aid = Except.ok s' →
    confirmClean s' aid = Except.error Err.invalidTransition) ∧
  (∀ ids st i (h1 : i < s.reports.length)
      (h2 : i < (applyBulkStatus s.reports ids st).1.length),
    (s.reports.get ⟨i, h1⟩).status = RStatus.cleaned →
    (applyBulkStatus s.reports ids st).1.get ⟨i, h2⟩ = s.reports.get ⟨i, h1⟩)

/-- C2's property at one store: a location key already under an active
assignment rejects every escalation with `AlreadyEscalated` and the store is
left unchanged; at most one non-cleaned assignment exists per location key;
and retrying a successful escalation fails with `AlreadyEscalated`. -/
def EscalationGuard (s : Store) : Prop :=
  (∀ key ids sev coords nts, hasActiveAssignment s key = true →
    escalate s key ids sev coords nts = Except.error Err.alreadyEscalated ∧
    escalateStore s key ids sev coords nts = s) ∧
  (∀ key, countActive s key ≤ 1) ∧
  (∀ key ids sev coords nts s' ids' sev' coords' nts',
    escalate s key ids sev coords nts = Except.ok s' →
    escalate s' key ids' sev' coords' nts' = Except.error Err.alreadyEscalated)

/-- C3's property of one successful escalation: exactly one assignment is
appended with `status = pending_lab_visit`, snapshotting the report ids and
severity; every referenced report becomes `contaminated` and stays active;
the propagator reports the number actually updated, which here is the full
report-id set; and in general `applyBulkStatus` skips exactly the missing or
terminal entries while still applying to the remainder. -/
def EscalateCreates (s : Store) (key : String) (ids : List Nat) (sev : Severity)
    (coords : Option (Real × Real)) (nts : String) (s' : Store) : Prop :=
  s'.assignments = s.assignments ++
    [⟨s.nextId, key, ids, sev, coords, AStatus.pending_lab_visit, s.now, none, none, nts⟩] ∧
  (∀ r ∈ s'.reports, r.id ∈ ids → r.status = RStatus.contaminated ∧ r.active = true) ∧
  (applyBulkStatus s.reports ids RStatus.contaminated).2 = ids.length ∧
  (s'.reports.filter (fun r =>
    decide (r.id ∈ ids) && decide (r.status = RStatus.contaminated))).length = ids.length ∧
  (∀ (rs : List Report) (ids' : List Nat) (st : RStatus),
    (applyBulkStatus rs ids' st).1.length = rs.length ∧
    (applyBulkStatus rs ids' st).2 =
      (rs.filter (fun r => decide (r.id ∈ ids') && decide (r.status ≠ RStatus.cleaned))).length ∧
    ∀ r ∈ rs, (r.id ∉ ids' ∨ r.status = RStatus.cleaned) →
      r ∈ (applyBulkStatus rs ids' st).1)

/-- C6's property at one store: every mutating operation keeps the `active`
flag derived from the status, a successful `confirmClean` leaves every
report referenced by the confirmed assignment `cleaned` and inactive, and
`listGroups` never places a `cleaned` report in any group. -/
def ActiveFlagDiscipline (s : Store) : Prop :=
  (∀ p st lk d ln desc ch s' r, submit s p st lk d ln desc ch = Except.ok (s', r) →
    ReportsConsistent s') ∧
  (∀ key ids sev coords nts s', escalate s key ids sev coords nts = Except.ok s' →
    ReportsConsistent s') ∧
  (∀ aid sd dr s', uploadSolution s aid sd dr = Except.ok s' → ReportsConsistent s') ∧
  (∀ ids st, ∀ r ∈ (applyBulkStatus s.reports ids st).1,
    r.active = true ↔ r.status ≠ RStatus.cleaned) ∧
  (∀ aid s', confirmClean s aid = Except.ok s' →
    ReportsConsistent s' ∧
    ∀ a, s.assignments.find? (fun b => decide (b.id = aid)) = some a →
      ∀ r ∈ s'.reports, r.id ∈ a.reportIds →
        r.status = RStatus.cleaned ∧ r.active = false) ∧
  (∀ d, ∀ g ∈ listGroups s d, ∀ r ∈ g.reports, r.status ≠ RStatus.cleaned)

/-- Mean Earth radius in kilometres used by the haversine formula. -/
noncomputable def earthRadiusKm : Real := 6371

/-- Degrees to radians. -/
noncomputable def toRad (d : Real) : Real := d * (Real.pi / 180)

/-- Two-argument arctangent, the standard `atan2` of the haversine formula. -/
noncomputable def atan2 (y x : Real) : Real :=
  if 0 < x then Real.arctan (y / x)
  else if x < 0 then
    (if 0 ≤ y then Real.arctan (y / x) + Real.pi else Real.arctan (y / x) - Real.pi)
  else
    (if 0 < y then Real.pi / 2 else if y < 0 then -(Real.pi / 2) else 0)

/-- Modelled from the spec: the `a` term of the haversine formula (spec
section 4.4, backend code absent from the source tree):
`sin²(Δlat/2) + cos(lat1)·cos(lat2)·sin²(Δlon/2)` with all angles converted
to radians. -/
noncomputable def havA (lat1 lon1 lat2 lon2 : Real) : Real :=
  Real.sin (toRad (lat2 - lat1) / 2) ^ 2 +
    Real.cos (toRad lat1) * Real.cos (toRad lat2) *
      Real.sin (toRad (lon2 - lon1) / 2) ^ 2

/-- Modelled from the spec: the haversine great-circle distance in
kilometres (spec section 4.4, backend code absent from the source tree):
`d = 2 · R · atan2(√a, √(1−a))` with mean Earth radius 6371 km. -/
noncomputable def haversine (lat1 lon1 lat2 lon2 : Real) : Real :=
  2 * earthRadiusKm *
    atan2 (Real.sqrt (havA lat1 lon1 lat2 lon2))
      (Real.sqrt (1 - havA lat1 lon1 lat2 lon2))

/-- Distance from a user position to an assignment's stored coordinates
(zero when the assignment has none; such assignments are filtered out before
this value is ever used). -/
noncomputable def distOf (ulat ulon : Real) (a : Assignment) : Real :=
  match a.coordinates with
  | some c => haversine ulat ulon c.1 c.2
  | none => 0

/-- Comparison of two assignments by their distance to the user, the sort
key of the proximity query. -/
def distLe (ulat ulon : Real) (a b : Assignment) : Prop :=
  distOf ulat ulon a ≤ distOf ulat ulon b

noncomputable instance (ulat ulon : Real) : DecidableRel (distLe ulat ulon) :=
  fun a b => inferInstanceAs (Decidable (_ ≤ _))

instance (ulat ulon : Real) : IsTotal Assignment (distLe ulat ulon) :=
  ⟨fun a b => le_total _ _⟩

instance (ulat ulon : Real) : IsTrans Assignment (distLe ulat ulon) :=
  ⟨fun _ _ _ h1 h2 => le_trans h1 h2⟩

/-- Filter of the proximity query: not cleaned, has coordinates, and within
the radius. -/
noncomputable def nearbyFilter (ulat ulon radiusKm : Real) (a : Assignment) : Bool :=
  decide (a.status ≠ AStatus.cleaned) &&
    (match a.coordinates with
     | none => false
     | some c => decide (haversine ulat ulon c.1 c.2 ≤ radiusKm))

/-- Modelled from the spec: `findNearby` of the Proximity Alert Engine (spec
section 4.4, backend code absent from the source tree): keep the assignments
that are not cleaned, carry coordinates, and lie within the radius, sorted
ascending by distance. -/
noncomputable def findNearby (ulat ulon radiusKm : Real) (l : List Assignment) :
    List Assignment :=
  (l.filter (nearbyFilter ulat ulon radiusKm)).insertionSort (distLe ulat ulon)

/-- Modelled from the spec: `getActiveAlertsNear` (spec sections 4.4 and 6,
backend code absent from the source tree), validating the user coordinate
and radius before running the proximity query over the stored assignments. -/
noncomputable def getActiveAlertsNear (s : Store) (lat lon radiusKm : Real) :
    Except Err (List Assignment) :=
  if lat < -90 ∨ 90 < lat ∨ lon < -180 ∨ 180 < lon then
    Except.error Err.invalidCoordinate
  else if radiusKm ≤ 0 then Except.error Err.invalidRadius
  else Except.ok (findNearby lat lon radiusKm s.assignments)

/-- Form state of `ReportingPage` (`src/unnamed/part_000`, `formData`). -/
structure SubmitFormData where
  problem : String
  sourceType : String
  pinCode : String
  localityName : String
  district : String
  description : String
deriving DecidableEq, Repr

/-- Required-field check of `ReportingPage.handleSubmit`
(`src/unnamed/part_000` lines 110-114): every required field must be a
non-empty (truthy) string; the description is not checked. -/
def requiredFieldsPresent (f : SubmitFormData) : Bool :=
  !(decide (f.problem = "") || decide (f.sourceType = "") || decide (f.pinCode = "") ||
    decide (f.localityName = "") || decide (f.district = ""))

/-- Request body posted to `/reporting/submit-report` by
`ReportingPage.handleSubmit` (`src/unnamed/part_000` lines 116-122), as the
list of key-value pairs of the JSON object literal. -/
def submitRequestBody (f : SubmitFormData) : List (String × String) :=
  [("problem", f.problem), ("sourceType", f.sourceType), ("pinCode", f.pinCode),
   ("localityName", f.localityName), ("district", f.district)]

/-- A hotspot as consumed by `HotspotMap`
(`src/frontend/src/components/HotspotMap.jsx`). -/
structure Hotspot where
  id : Nat
  latitude : Rat
  longitude : Rat
  isActive : Bool
  areaName : String
  status : String
  hotspotSeverity : String
deriving DecidableEq, Repr

/-- Icon choices produced by `createContaminatedIcon` (red) and
`createCleanIcon` (green) in `HotspotMap.jsx`. -/
inductive MarkerIcon where
  | contaminatedRed
  | cleanGreen
deriving DecidableEq, Repr

/-- Markers rendered by `HotspotMap` for its hotspot list
(`HotspotMap.jsx` lines 144-149): one marker per hotspot, with the red
contaminated icon exactly when `hotspot.isActive` is truthy and the green
clean icon otherwise. -/
def hotspotMarkers (hs : List Hotspot) : List (Hotspot × MarkerIcon) :=
  hs.map (fun h =>
    (h, if h.isActive then MarkerIcon.contaminatedRed else MarkerIcon.cleanGreen))

/-- Concrete report produced by the first demonstration submission. -/
def demoReport : Report :=
  ⟨0, "781014", "Kamrup", "Guwahati", "Muddy water", "Handpump", none,
    RStatus.reported, true, 0, 0, false, Channel.web⟩

/-- Store after one successful submission into the empty store. -/
def demoStore1 : Store := ⟨[demoReport], [], 1, 0⟩

/-- The demonstration report after escalation marked it contaminated. -/
def demoReportEsc : Report :=
  ⟨0, "781014", "Kamrup", "Guwahati", "Muddy water", "Handpump", none,
    RStatus.contaminated, true, 0, 0, false, Channel.web⟩

/-- Assignment created by the demonstration escalation. -/
def demoAssign : Assignment :=
  ⟨1, "781014", [0], Severity.mild, none, AStatus.pending_lab_visit, 0, none, none, ""⟩

/-- Store after the demonstration escalation of location key 781014. -/
def demoStore2 : Store := ⟨[demoReportEsc], [demoAssign], 2, 0⟩

end CleanWater

namespace CleanWater

/-- C1: for every count `n` of active reports grouped under one locationKey,
the computed severity is `none` for `n < 5`, `mild` for `5 ≤ n < 10`,
`medium` for `10 ≤ n < 20` and `severe` for `n ≥ 20`; the boundary counts
5, 10 and 20 land in the higher bucket (`mild`, `medium`, `severe`). -/
theorem severity_buckets (n : Nat) :
    (severity n = Severity.none ↔ n < 5) ∧
    (severity n = Severity.mild ↔ 5 ≤ n ∧ n < 10) ∧
    (severity n = Severity.medium ↔ 10 ≤ n ∧ n < 20) ∧
    (severity n = Severity.severe ↔ 20 ≤ n) ∧
    severity 5 = Severity.mild ∧
    severity 10 = Severity.medium ∧
    severity 20 = Severity.severe := by
  refine ⟨?_, ?_, ?_, ?_, by decide, by decide, by decide⟩ <;>
    · unfold severity
      split_ifs with h1 h2 h3 <;> simp <;> omega

theorem bulkUpd_id (ids : List Nat) (st : RStatus) (r : Report) :
    (bulkUpd ids st r).id = r.id := by
  unfold bulkUpd; split <;> rfl

theorem bulkUpd_eq_self (ids : List Nat) (st : RStatus) (r : Report)
    (h : ¬(r.id ∈ ids ∧ r.status ≠ RStatus.cleaned)) : bulkUpd ids st r = r := by
  unfold bulkUpd; rw [if_neg h]

theorem bulkUpd_eq_pos (ids : List Nat) (st : RStatus) (r : Report)
    (h : r.id ∈ ids ∧ r.status ≠ RStatus.cleaned) :
    bulkUpd ids st r =
      { r with status := st, active := decide (st ≠ RStatus.cleaned) } := by
  unfold bulkUpd; rw [if_pos h]

theorem applyBulkStatus_length (rs : List Report) (ids : List Nat) (st : RStatus) :
    (applyBulkStatus rs ids st).1.length = rs.length := by
  simp [applyBulkStatus]

theorem applyBulkStatus_map_id (rs : List Report) (ids : List Nat) (st : RStatus) :
    (applyBulkStatus rs ids st).1.map Report.id = rs.map Report.id := by
  simp only [applyBulkStatus, List.map_map]
  congr 1
  funext r
  exact bulkUpd_id ids st r

theorem uploadUpd_id (aid t : Nat) (b : Assignment) : (uploadUpd aid t b).id = b.id := by
  unfold uploadUpd; split <;> rfl

theorem uploadUpd_reportIds (aid t : Nat) (b : Assignment) :
    (uploadUpd aid t b).reportIds = b.reportIds := by
  unfold uploadUpd; split <;> rfl

theorem uploadUpd_locationKey (aid t : Nat) (b : Assignment) :
    (uploadUpd aid t b).locationKey = b.locationKey := by
  unfold uploadUpd; split <;> rfl

theorem uploadUpd_eq_self (aid t : Nat) (b : Assignment)
    (h : ¬(b.id = aid ∧ b.status = AStatus.pending_lab_visit)) : uploadUpd aid t b = b := by
  simp only [uploadUpd, Bool.and_eq_true, decide_eq_true_eq, ite_eq_right_iff]
  intro hh
  exact absurd hh h

theorem uploadUpd_eq_pos (aid t : Nat) (b : Assignment)
    (h1 : b.id = aid) (h2 : b.status = AStatus.pending_lab_visit) :
    uploadUpd aid t b =
      { b with status := AStatus.solution_uploaded, solutionUploadedAt := some t } := by
  simp [uploadUpd, h1, h2]

theorem confirmUpd_id (aid t : Nat) (b : Assignment) : (confirmUpd aid t b).id = b.id := by
  unfold confirmUpd; split <;> rfl

theorem confirmUpd_reportIds (aid t : Nat) (b : Assignment) :
    (confirmUpd aid t b).reportIds = b.reportIds := by
  unfold confirmUpd; split <;> rfl

theorem confirmUpd_locationKey (aid t : Nat) (b : Assignment) :
    (confirmUpd aid t b).locationKey = b.locationKey := by
  unfold confirmUpd; split <;> rfl

theorem confirmUpd_eq_self (aid t : Nat) (b : Assignment)
    (h : ¬(b.id = aid ∧ b.status = AStatus.solution_uploaded)) : confirmUpd aid t b = b := by
  simp only [confirmUpd, Bool.and_eq_true, decide_eq_true_eq, ite_eq_right_iff]
  intro hh
  exact absurd hh h

theorem confirmUpd_eq_pos (aid t : Nat) (b : Assignment)
    (h1 : b.id = aid) (h2 : b.status = AStatus.solution_uploaded) :
    confirmUpd aid t b =
      { b with status := AStatus.cleaned, confirmedCleanAt := some t } := by
  simp [confirmUpd, h1, h2]

theorem submit_ok {s : Store} {p st lk d ln desc : Option String} {ch : Channel}
    {s' : Store} {r : Report}
    (h : submit s p st lk d ln desc ch = Except.ok (s', r)) :
    requiredMissing p st lk d ln = [] ∧
    r = newReport s p st lk d ln desc ch ∧
    s' = { s with reports := s.reports ++ [newReport s p st lk d ln desc ch],
                  nextId := s.nextId + 1 } := by
  unfold submit at h
  split at h
  · rename_i hm
    injection h with h'
    injection h' with h1 h2
    exact ⟨hm, h2.symm, h1.symm⟩
  · simp at h

theorem escalate_ok {s s' : Store} {key : String} {ids : List Nat} {sev : Severity}
    {coords : Option (Real × Real)} {nts : String}
    (h : escalate s key ids sev coords nts = Except.ok s') :
    hasActiveAssignment s key = false ∧ validReportSet s key ids = true ∧
    s' = { s with
        reports := (applyBulkStatus s.reports ids RStatus.contaminated).1,
        assignments := s.assignments ++
          [⟨s.nextId, key, ids, sev, coords, AStatus.pending_lab_visit,
            s.now, none, none, nts⟩],
        nextId := s.nextId + 1 } := by
  unfold escalate at h
  split at h
  · simp at h
  · rename_i h1
    split at h
    · rename_i h2
      injection h with h'
      exact ⟨by simpa using h1, h2, h'.symm⟩
    · simp at h

theorem uploadSolution_ok {s s' : Store} {aid : Nat} {sd dr : String}
    (h : uploadSolution s aid sd dr = Except.ok s') :
    ∃ a, s.assignments.find? (fun b => decide (b.id = aid)) = some a ∧
      a.status = AStatus.pending_lab_visit ∧
      s' = { s with assignments := s.assignments.map (uploadUpd aid s.now) } := by
  unfold uploadSolution at h
  split at h
  · simp at h
  · rename_i a ha
    split at h
    · rename_i h2
      injection h with h'
      exact ⟨a, ha, h2, h'.symm⟩
    · simp at h

theorem confirmClean_ok {s s' : Store} {aid : Nat}
    (h : confirmClean s aid = Except.ok s') :
    ∃ a, s.assignments.find? (fun b => decide (b.id = aid)) = some a ∧
      a.status = AStatus.solution_uploaded ∧
      s' = { s with
          assignments := s.assignments.map (confirmUpd aid s.now),
          reports := (applyBulkStatus s.reports a.reportIds RStatus.cleaned).1 } := by
  unfold confirmClean at h
  split at h
  · simp at h
  · rename_i a ha
    split at h
    · rename_i h2
      injection h with h'
      exact ⟨a, ha, h2, h'.symm⟩
    · simp at h

/-- C8: a `submit` call missing one or more of the required fields
problemType, sourceType, locationKey, district, localityName fails with a
`ValidationError` listing exactly the missing fields and creates no report,
while a call with all required fields present succeeds even when the
optional description is missing. -/
theorem submit_validation (s : Store) (p st lk d ln desc : Option String) (ch : Channel) :
    ((p = none ∨ st = none ∨ lk = none ∨ d = none ∨ ln = none) →
      submit s p st lk d ln desc ch =
        Except.error (Err.validationError (requiredMissing p st lk d ln)) ∧
      requiredMissing p st lk d ln ≠ [] ∧
      ("problemType" ∈ requiredMissing p st lk d ln ↔ p = none) ∧
      ("sourceType" ∈ requiredMissing p st lk d ln ↔ st = none) ∧
      ("locationKey" ∈ requiredMissing p st lk d ln ↔ lk = none) ∧
      ("district" ∈ requiredMissing p st lk d ln ↔ d = none) ∧
      ("localityName" ∈ requiredMissing p st lk d ln ↔ ln = none) ∧
      submitStore s p st lk d ln desc ch = s) ∧
    (p ≠ none → st ≠ none → lk ≠ none → d ≠ none → ln ≠ none →
      submit s p st lk d ln desc ch =
        Except.ok
          ({ s with reports := s.reports ++ [newReport s p st lk d ln desc ch],
                    nextId := s.nextId + 1 },
           newReport s p st lk d ln desc ch)) := by
  constructor
  · intro hmiss
    rcases p with _ | pv <;> rcases st with _ | stv <;> rcases lk with _ | lkv <;>
      rcases d with _ | dv <;> rcases ln with _ | lnv <;>
      simp_all [submit, submitStore, requiredMissing]
  · intro hp hst hlk hd hln
    rcases p with _ | pv
    · exact absurd rfl hp
    rcases st with _ | stv
    · exact absurd rfl hst
    rcases lk with _ | lkv
    · exact absurd rfl hlk
    rcases d with _ | dv
    · exact absurd rfl hd
    rcases ln with _ | lnv
    · exact absurd rfl hln
    rfl

/-- C9: a web form submission passing the required-field check posts a body
holding exactly the fields problem, sourceType, pinCode, localityName and
district; the description the user typed is never part of the posted
report. -/
theorem submit_body_fields (f : SubmitFormData) (h : requiredFieldsPresent f = true) :
    (submitRequestBody f).map Prod.fst =
      ["problem", "sourceType", "pinCode", "localityName", "district"] ∧
    "description" ∉ (submitRequestBody f).map Prod.fst ∧
    ∀ kv ∈ submitRequestBody f, kv.1 ≠ "description" := by
  have h1 : (submitRequestBody f).map Prod.fst =
      ["problem", "sourceType", "pinCode", "localityName", "district"] := rfl
  refine ⟨h1, by rw [h1]; decide, ?_⟩
  intro kv hkv
  simp only [submitRequestBody, List.mem_cons, List.not_mem_nil, or_false] at hkv
  rcases hkv with h2 | h2 | h2 | h2 | h2 <;> subst h2 <;> simp

/-- C9 witness: a concrete form state passing the check posts exactly the
five fields and no description. -/
theorem submit_body_fields_witness :
    (submitRequestBody ⟨"Muddy water", "Handpump", "781014", "Guwahati", "Kamrup",
        "it smells"⟩).map Prod.fst =
      ["problem", "sourceType", "pinCode", "localityName", "district"] ∧
    "description" ∉ (submitRequestBody ⟨"Muddy water", "Handpump", "781014", "Guwahati",
        "Kamrup", "it smells"⟩).map Prod.fst ∧
    ∀ kv ∈ submitRequestBody ⟨"Muddy water", "Handpump", "781014", "Guwahati", "Kamrup",
        "it smells"⟩, kv.1 ≠ "description" :=
  submit_body_fields
    ⟨"Muddy water", "Handpump", "781014", "Guwahati", "Kamrup", "it smells"⟩
    (by decide)

theorem hasActiveAssignment_iff (s : Store) (key : String) :
    hasActiveAssignment s key = true ↔
      ∃ a ∈ s.assignments, a.locationKey = key ∧ a.status ≠ AStatus.cleaned := by
  simp [hasActiveAssignment, List.any_eq_true, Bool.and_eq_true, decide_eq_true_eq]

theorem hasActiveAssignment_false_iff (s : Store) (key : String) :
    hasActiveAssignment s key = false ↔
      ∀ a ∈ s.assignments, a.locationKey = key → a.status = AStatus.cleaned := by
  simp [hasActiveAssignment, List.any_eq_false, Bool.and_eq_true, decide_eq_true_eq,
    not_and, not_not]

theorem validReportSet_iff (s : Store) (key : String) (ids : List Nat) :
    validReportSet s key ids = true ↔
      ids ≠ [] ∧ ids.Nodup ∧
      ∀ i ∈ ids, ∃ r ∈ s.reports, r.id = i ∧ r.active = true ∧ r.locationKey = key := by
  simp only [validReportSet, Bool.and_eq_true, decide_eq_true_eq, List.all_eq_true,
    List.any_eq_true, and_assoc]

theorem countActive_eq_zero (s : Store) (key : String)
    (h : hasActiveAssignment s key = false) : countActive s key = 0 := by
  unfold countActive
  rw [List.length_eq_zero, List.filter_eq_nil_iff]
  intro a ha
  have hcl := (hasActiveAssignment_false_iff s key).mp h a ha
  simp only [Bool.and_eq_true, decide_eq_true_eq, not_and]
  intro hk hne
  exact hne (hcl hk)

theorem uploadUpd_actPred (key : String) (aid t : Nat) (b : Assignment) :
    (decide ((uploadUpd aid t b).locationKey = key) &&
      decide ((uploadUpd aid t b).status ≠ AStatus.cleaned)) =
    (decide (b.locationKey = key) && decide (b.status ≠ AStatus.cleaned)) := by
  by_cases c : b.id = aid ∧ b.status = AStatus.pending_lab_visit
  · rw [uploadUpd_eq_pos aid t b c.1 c.2]
    simp [c.2]
  · rw [uploadUpd_eq_self aid t b c]

theorem storeInv_init : StoreInv initStore := by
  constructor <;> simp [initStore, countActive]

theorem storeInv_submit {s : Store} {p st lk d ln desc : Option String} {ch : Channel}
    {s' : Store} {r : Report} (hs : StoreInv s)
    (h : submit s p st lk d ln desc ch = Except.ok (s', r)) : StoreInv s' := by
  obtain ⟨hm, hr, hs'⟩ := submit_ok h
  subst hs'
  refine ⟨?_, ?_, ?_, ?_, ?_, ?_, ?_⟩
  · intro x hx
    rcases List.mem_append.mp hx with hx | hx
    · exact Nat.lt_succ_of_lt (hs.rIdLt x hx)
    · simp only [List.mem_singleton] at hx
      subst hx
      exact Nat.lt_succ_self _
  · intro a ha
    exact Nat.lt_succ_of_lt (hs.aIdLt a ha)
  · intro a ha i hi
    exact Nat.lt_succ_of_lt (hs.refLt a ha i hi)
  · rw [List.map_append]
    refine List.Nodup.append hs.rNodup (by simp) ?_
    intro x hx hx2
    simp only [List.map_cons, List.map_nil, List.mem_singleton] at hx2
    subst hx2
    rcases List.mem_map.mp hx with ⟨r0, hr0, hid⟩
    exact absurd (hid ▸ hs.rIdLt r0 hr0) (lt_irrefl _)
  · exact hs.aNodup
  · intro a ha x hx hmem
    rcases List.mem_append.mp hx with hx | hx
    · exact hs.refNotRep a ha x hx hmem
    · simp only [List.mem_singleton] at hx
      subst hx
      have hlt := hs.refLt a ha _ hmem
      simp [newReport] at hlt
  · intro key
    simpa [countActive] using hs.oneActive key

theorem storeInv_escalate {s s' : Store} {key : String} {ids : List Nat} {sev : Severity}
    {coords : Option (Real × Real)} {nts : String} (hs : StoreInv s)
    (h : escalate s key ids sev coords nts = Except.ok s') : StoreInv s' := by
  obtain ⟨hact, hval, hs'⟩ := escalate_ok h
  obtain ⟨hne, hnodup, hsub⟩ := (validReportSet_iff s key ids).mp hval
  subst hs'
  refine ⟨?_, ?_, ?_, ?_, ?_, ?_, ?_⟩
  · intro x hx
    rcases List.mem_map.mp hx with ⟨r0, hr0, rfl⟩
    rw [bulkUpd_id]
    exact Nat.lt_succ_of_lt (hs.rIdLt r0 hr0)
  · intro a ha
    rcases List.mem_append.mp ha with ha | ha
    · exact Nat.lt_succ_of_lt (hs.aIdLt a ha)
    · simp only [List.mem_singleton] at ha
      subst ha
      exact Nat.lt_succ_self _
  · intro a ha i hi
    rcases List.mem_append.mp ha with ha | ha
    · exact Nat.lt_succ_of_lt (hs.refLt a ha i hi)
    · simp only [List.mem_singleton] at ha
      subst ha
      rcases hsub i hi with ⟨r0, hr0, hid, _⟩
      exact Nat.lt_succ_of_lt (hid ▸ hs.rIdLt r0 hr0)
  · rw [applyBulkStatus_map_id]
    exact hs.rNodup
  · rw [List.map_append]
    refine List.Nodup.append hs.aNodup (by simp) ?_
    intro x hx hx2
    simp only [List.map_cons, List.map_nil, List.mem_singleton] at hx2
    subst hx2
    rcases List.mem_map.mp hx with ⟨a0, ha0, hid⟩
    exact absurd (hid ▸ hs.aIdLt a0 ha0) (lt_irrefl _)
  · intro a ha x hx hmem
    rcases List.mem_map.mp hx with ⟨r0, hr0, rfl⟩
    rw [bulkUpd_id] at hmem
    by_cases c : r0.id ∈ ids ∧ r0.status ≠ RStatus.cleaned
    · rw [bulkUpd_eq_pos ids RStatus.contaminated r0 c]
      simp
    · rw [bulkUpd_eq_self ids RStatus.contaminated r0 c]
      rcases List.mem_append.mp ha with ha | ha
      · exact hs.refNotRep a ha r0 hr0 hmem
      · simp only [List.mem_singleton] at ha
        subst ha
        rw [not_and, not_not] at c
        intro hrep
        rw [c hmem] at hrep
        exact RStatus.noConfusion hrep
  · intro key'
    have hold := hs.oneActive key'
    unfold countActive at hold ⊢
    rw [List.filter_append, List.length_append]
    by_cases hk : key = key'
    · subst hk
      have h0 : countActive s key = 0 := countActive_eq_zero s key hact
      unfold countActive at h0
      rw [h0]
      have hle := List.length_filter_le
        (fun a => decide (a.locationKey = key) && decide (a.status ≠ AStatus.cleaned))
        [(⟨s.nextId, key, ids, sev, coords, AStatus.pending_lab_visit,
          s.now, none, none, nts⟩ : Assignment)]
      simp only [List.length_singleton] at hle
      omega
    · have hnil : (List.filter (fun a => decide (a.locationKey = key') &&
          decide (a.status ≠ AStatus.cleaned))
          [(⟨s.nextId, key, ids, sev, coords, AStatus.pending_lab_visit,
            s.now, none, none, nts⟩ : Assignment)]) = [] := by
        simp [hk]
      rw [hnil]
      simpa using hold

theorem storeInv_upload {s s' : Store} {aid : Nat} {sd dr : String} (hs : StoreInv s)
    (h : uploadSolution s aid sd dr = Except.ok s') : StoreInv s' := by
  obtain ⟨a, ha, hpend, hs'⟩ := uploadSolution_ok h
  subst hs'
  refine ⟨?_, ?_, ?_, ?_, ?_, ?_, ?_⟩
  · exact hs.rIdLt
  · intro x hx
    rcases List.mem_map.mp hx with ⟨b, hb, rfl⟩
    rw [uploadUpd_id]
    exact hs.aIdLt b hb
  · intro x hx i hi
    rcases List.mem_map.mp hx with ⟨b, hb, rfl⟩
    rw [uploadUpd_reportIds] at hi
    exact hs.refLt b hb i hi
  · exact hs.rNodup
  · rw [List.map_map]
    have hcomp : Assignment.id ∘ uploadUpd aid s.now = Assignment.id :=
      funext (uploadUpd_id aid s.now)
    rw [hcomp]
    exact hs.aNodup
  · intro x hx r hr hmem
    rcases List.mem_map.mp hx with ⟨b, hb, rfl⟩
    rw [uploadUpd_reportIds] at hmem
    exact hs.refNotRep b hb r hr hmem
  · intro key
    have hold := hs.oneActive key
    unfold countActive at hold ⊢
    rw [List.filter_map, List.length_map]
    simp only [Function.comp_def]
    rw [List.filter_congr (fun b _ => uploadUpd_actPred key aid s.now b)]
    exact hold

theorem storeInv_confirm {s s' : Store} {aid : Nat} (hs : StoreInv s)
    (h : confirmClean s aid = Except.ok s') : StoreInv s' := by
  obtain ⟨a, ha, hsol, hs'⟩ := confirmClean_ok h
  subst hs'
  refine ⟨?_, ?_, ?_, ?_, ?_, ?_, ?_⟩
  · intro x hx
    rcases List.mem_map.mp hx with ⟨r0, hr0, rfl⟩
    rw [bulkUpd_id]
    exact hs.rIdLt r0 hr0
  · intro x hx
    rcases List.mem_map.mp hx with ⟨b, hb, rfl⟩
    rw [confirmUpd_id]
    exact hs.aIdLt b hb
  · intro x hx i hi
    rcases List.mem_map.mp hx with ⟨b, hb, rfl⟩
    rw [confirmUpd_reportIds] at hi
    exact hs.refLt b hb i hi
  · rw [applyBulkStatus_map_id]
    exact hs.rNodup
  · rw [List.map_map]
    have hcomp : Assignment.id ∘ confirmUpd aid s.now = Assignment.id :=
      funext (confirmUpd_id aid s.now)
    rw [hcomp]
    exact hs.aNodup
  · intro x hx r hr hmem
    rcases List.mem_map.mp hx with ⟨b, hb, rfl⟩
    rcases List.mem_map.mp hr with ⟨r0, hr0, rfl⟩
    rw [confirmUpd_reportIds] at hmem
    rw [bulkUpd_id] at hmem
    by_cases c : r0.id ∈ a.reportIds ∧ r0.status ≠ RStatus.cleaned
    · rw [bulkUpd_eq_pos _ _ _ c]
      simp
    · rw [bulkUpd_eq_self _ _ _ c]
      exact hs.refNotRep b hb r0 hr0 hmem
  · intro key
    have hold := hs.oneActive key
    unfold countActive at hold ⊢
    rw [List.filter_map, List.length_map]
    refine le_trans (List.Sublist.length_le
      (List.monotone_filter_right _ (fun b hb => ?_))) hold
    by_cases c : b.id = aid ∧ b.status = AStatus.solution_uploaded
    · rw [Function.comp_apply, confirmUpd_eq_pos aid s.now b c.1 c.2] at hb
      simp at hb
    · rwa [Function.comp_apply, confirmUpd_eq_self aid s.now b c] at hb

theorem reachable_inv {s : Store} (h : Reachable s) : StoreInv s := by
  induction h with
  | init => exact storeInv_init
  | submit_step _ heq ih => exact storeInv_submit ih heq
  | escalate_step _ heq ih => exact storeInv_escalate ih heq
  | upload_step _ heq ih => exact storeInv_upload ih heq
  | confirm_step _ heq ih => exact storeInv_confirm ih heq

theorem reachable_demoStore1 : Reachable demoStore1 :=
  @Reachable.submit_step initStore demoStore1 (some "Muddy water") (some "Handpump")
    (some "781014") (some "Kamrup") (some "Guwahati") none Channel.web demoReport
    Reachable.init rfl

theorem reachable_demoStore2 : Reachable demoStore2 :=
  @Reachable.escalate_step demoStore1 demoStore2 "781014" [0] Severity.mild none ""
    reachable_demoStore1 rfl

/-- C2: in every reachable store, a locationKey that already has an active
(non-cleaned) assignment rejects every `escalate` call with
`AlreadyEscalated` leaving the store unchanged; at most one non-cleaned
assignment exists per locationKey; and retrying a successful `escalate`
fails with `AlreadyEscalated` instead of creating a second assignment. -/
theorem escalate_guard (s : Store) (h : Reachable s) : EscalationGuard s := by
  refine ⟨?_, ?_, ?_⟩
  · intro key ids sev coords nts hact
    constructor
    · simp [escalate, hact]
    · simp [escalateStore, escalate, hact]
  · exact (reachable_inv h).oneActive
  · intro key ids sev coords nts s' ids' sev' coords' nts' hok
    obtain ⟨hact, hval, hs'⟩ := escalate_ok hok
    subst hs'
    have hact' : hasActiveAssignment
        { s with
          reports := (applyBulkStatus s.reports ids RStatus.contaminated).1,
          assignments := s.assignments ++
            [⟨s.nextId, key, ids, sev, coords, AStatus.pending_lab_visit,
              s.now, none, none, nts⟩],
          nextId := s.nextId + 1 } key = true := by
      rw [hasActiveAssignment_iff]
      refine ⟨⟨s.nextId, key, ids, sev, coords, AStatus.pending_lab_visit,
        s.now, none, none, nts⟩, ?_, rfl, by simp⟩
      exact List.mem_append.mpr (Or.inr (by simp))
    simp [escalate, hact']

/-- C2 witness: the escalation guard holds at the concrete reachable store
obtained by submitting one report for location key 781014 and escalating
it. -/
theorem escalate_guard_witness : EscalationGuard demoStore2 :=
  escalate_guard demoStore2 reachable_demoStore2

theorem nodup_filter_length {ids l : List Nat} (hl : l.Nodup) (hids : ids.Nodup)
    (hsub : ∀ i ∈ ids, i ∈ l) :
    (l.filter (fun i => decide (i ∈ ids))).length = ids.length := by
  have hperm : List.Perm (l.filter (fun i => decide (i ∈ ids))) ids := by
    apply (List.perm_ext_iff_of_nodup (hl.filter _) hids).mpr
    intro x
    simp only [List.mem_filter, decide_eq_true_eq]
    constructor
    · rintro ⟨_, hx⟩
      exact hx
    · intro hx
      exact ⟨hsub x hx, hx⟩
  exact hperm.length_eq

/-- C3: a successful `escalate` appends exactly one assignment with status
`pending_lab_visit` snapshotting the report ids and severity, marks every
referenced report `contaminated` with `active` still true, and the Status
Propagator updates exactly `|reportIds|` reports (no skips here because the
preconditions exclude terminal reports), returning that count; in general it
skips missing or terminal entries and still applies to the remainder. -/
theorem escalate_creates (s : Store) (key : String) (ids : List Nat) (sev : Severity)
    (coords : Option (Real × Real)) (nts : String) (s' : Store)
    (hc : ReportsConsistent s) (hn : (s.reports.map Report.id).Nodup)
    (h : escalate s key ids sev coords nts = Except.ok s') :
    EscalateCreates s key ids sev coords nts s' := by
  obtain ⟨hact, hval, hs'⟩ := escalate_ok h
  obtain ⟨hne, hnodup, hsub⟩ := (validReportSet_iff s key ids).mp hval
  have hkey : ∀ r ∈ s.reports, r.id ∈ ids → r.active = true := by
    intro r hr hmem
    rcases hsub r.id hmem with ⟨r0, hr0, hid, hac, _⟩
    have heq : r0 = r := List.inj_on_of_nodup_map hn hr0 hr hid
    exact heq ▸ hac
  have hncl : ∀ r ∈ s.reports, r.id ∈ ids → r.status ≠ RStatus.cleaned := by
    intro r hr hmem
    exact (hc r hr).mp (hkey r hr hmem)
  have hlen : (s.reports.filter (fun r => decide (r.id ∈ ids))).length = ids.length := by
    have hmapeq : (s.reports.filter (fun r => decide (r.id ∈ ids))).length
        = ((s.reports.map Report.id).filter (fun i => decide (i ∈ ids))).length := by
      rw [List.filter_map, List.length_map]
      simp [Function.comp_def]
    rw [hmapeq]
    refine nodup_filter_length hn hnodup ?_
    intro i hi
    rcases hsub i hi with ⟨r0, hr0, hid, _⟩
    exact List.mem_map.mpr ⟨r0, hr0, hid⟩
  subst hs'
  refine ⟨rfl, ?_, ?_, ?_, ?_⟩
  · intro r hr hmem
    rcases List.mem_map.mp hr with ⟨r0, hr0, rfl⟩
    rw [bulkUpd_id] at hmem
    rw [bulkUpd_eq_pos _ _ _ ⟨hmem, hncl r0 hr0 hmem⟩]
    exact ⟨rfl, by simp⟩
  · show (List.filter _ s.reports).length = ids.length
    have heq : ∀ r ∈ s.reports,
        (decide (r.id ∈ ids) && decide (r.status ≠ RStatus.cleaned)) =
          decide (r.id ∈ ids) := by
      intro r hr
      by_cases hm : r.id ∈ ids
      · simp [hm, hncl r hr hm]
      · simp [hm]
    rw [List.filter_congr heq]
    exact hlen
  · show (List.filter _ ((applyBulkStatus s.reports ids RStatus.contaminated).1)).length
        = ids.length
    have heq2 : ∀ r ∈ s.reports,
        (decide ((bulkUpd ids RStatus.contaminated r).id ∈ ids) &&
          decide ((bulkUpd ids RStatus.contaminated r).status = RStatus.contaminated)) =
          decide (r.id ∈ ids) := by
      intro r hr
      by_cases hm : r.id ∈ ids
      · rw [bulkUpd_eq_pos _ _ _ ⟨hm, hncl r hr hm⟩]
        simp [hm]
      · rw [bulkUpd_eq_self _ _ _ (fun hcnd => hm hcnd.1)]
        simp [hm]
    show (List.filter _ (s.reports.map (bulkUpd ids RStatus.contaminated))).length
        = ids.length
    rw [List.filter_map, List.length_map]
    simp only [Function.comp_def]
    rw [List.filter_congr heq2]
    exact hlen
  · intro rs ids' st
    refine ⟨applyBulkStatus_length rs ids' st, rfl, ?_⟩
    intro r hr hskip
    have hid : bulkUpd ids' st r = r := by
      refine bulkUpd_eq_self _ _ _ ?_
      rintro ⟨hm, hncl'⟩
      rcases hskip with h1 | h1
      · exact h1 hm
      · exact hncl' h1
    exact List.mem_map.mpr ⟨r, hr, hid⟩

/-- C3 witness: escalating the concrete one-report store for location key
781014 creates the expected assignment and contaminates the report. -/
theorem escalate_creates_witness :
    EscalateCreates demoStore1 "781014" [0] Severity.mild none "" demoStore2 :=
  escalate_creates demoStore1 "781014" [0] Severity.mild none "" demoStore2
    (by unfold ReportsConsistent; decide) (by decide) rfl

theorem reportsAdvance_refl (l : List Report) : reportsAdvance l l :=
  ⟨le_refl _, fun _ _ _ => Or.inl rfl⟩

theorem assignsAdvance_refl (l : List Assignment) : assignsAdvance l l :=
  ⟨le_refl _, fun _ _ _ => Or.inl rfl⟩

theorem reportsAdvance_append (l : List Report) (x : Report) :
    reportsAdvance l (l ++ [x]) := by
  refine ⟨by simp, ?_⟩
  intro i h1 h2
  have hg : (l ++ [x]).get ⟨i, h2⟩ = l.get ⟨i, h1⟩ := by
    simp only [List.get_eq_getElem]
    exact List.getElem_append_left h1
  rw [hg]
  exact Or.inl rfl

theorem assignsAdvance_append (l : List Assignment) (x : Assignment) :
    assignsAdvance l (l ++ [x]) := by
  refine ⟨by simp, ?_⟩
  intro i h1 h2
  have hg : (l ++ [x]).get ⟨i, h2⟩ = l.get ⟨i, h1⟩ := by
    simp only [List.get_eq_getElem]
    exact List.getElem_append_left h1
  rw [hg]
  exact Or.inl rfl

theorem rAdv_bulkUpd_contaminated (ids : List Nat) (r : Report) :
    rAdv r.status (bulkUpd ids RStatus.contaminated r).status := by
  by_cases c : r.id ∈ ids ∧ r.status ≠ RStatus.cleaned
  · rw [bulkUpd_eq_pos _ _ _ c]
    rcases hst : r.status with _ | _ | _
    · exact Or.inr (Or.inl ⟨rfl, rfl⟩)
    · exact Or.inl rfl
    · exact absurd hst c.2
  · rw [bulkUpd_eq_self _ _ _ c]
    exact Or.inl rfl

/-- C4: in every reachable store, reports only ever advance along
reported → contaminated → cleaned and assignments only along
pending_lab_visit → solution_uploaded → cleaned; a backward or
state-skipping transition attempt fails with `InvalidTransition`; each
assignment transition fires exactly once (repeating it fails); and
`cleaned` is terminal for both machines. -/
theorem transition_discipline (s : Store) (h : Reachable s) :
    TransitionDiscipline s := by
  have hinv := reachable_inv h
  refine ⟨?_, ?_, ?_, ?_, ?_, ?_, ?_, ?_, ?_⟩
  · intro p st lk d ln desc ch s' r hok
    obtain ⟨hm, hr, hs'⟩ := submit_ok hok
    subst hs'
    subst hr
    exact ⟨reportsAdvance_append _ _, assignsAdvance_refl _, rfl⟩
  · intro key ids sev coords nts s' hok
    obtain ⟨hact, hval, hs'⟩ := escalate_ok hok
    subst hs'
    constructor
    · refine ⟨by simp [applyBulkStatus], ?_⟩
      intro i h1 h2
      have hg : ((applyBulkStatus s.reports ids RStatus.contaminated).1).get ⟨i, h2⟩
          = bulkUpd ids RStatus.contaminated (s.reports.get ⟨i, h1⟩) := by
        simp [applyBulkStatus, List.get_eq_getElem]
      rw [hg]
      exact rAdv_bulkUpd_contaminated ids _
    · exact assignsAdvance_append _ _
  · intro aid sd dr s' hok
    obtain ⟨a, ha, hpend, hs'⟩ := uploadSolution_ok hok
    subst hs'
    refine ⟨reportsAdvance_refl _, by simp, ?_⟩
    intro i h1 h2
    have hg : ((s.assignments.map (uploadUpd aid s.now)).get ⟨i, h2⟩)
        = uploadUpd aid s.now (s.assignments.get ⟨i, h1⟩) := by
      simp [List.get_eq_getElem]
    rw [hg]
    by_cases c : (s.assignments.get ⟨i, h1⟩).id = aid ∧
        (s.assignments.get ⟨i, h1⟩).status = AStatus.pending_lab_visit
    · rw [uploadUpd_eq_pos _ _ _ c.1 c.2, c.2]
      exact Or.inr (Or.inl ⟨rfl, rfl⟩)
    · rw [uploadUpd_eq_self _ _ _ c]
      exact Or.inl rfl
  · intro aid s' hok
    obtain ⟨a, ha, hsol, hs'⟩ := confirmClean_ok hok
    have hamem : a ∈ s.assignments := List.mem_of_find?_eq_some ha
    subst hs'
    constructor
    · refine ⟨by simp [applyBulkStatus], ?_⟩
      intro i h1 h2
      have hg : ((applyBulkStatus s.reports a.reportIds RStatus.cleaned).1).get ⟨i, h2⟩
          = bulkUpd a.reportIds RStatus.cleaned (s.reports.get ⟨i, h1⟩) := by
        simp [applyBulkStatus, List.get_eq_getElem]
      rw [hg]
      by_cases c : (s.reports.get ⟨i, h1⟩).id ∈ a.reportIds ∧
          (s.reports.get ⟨i, h1⟩).status ≠ RStatus.cleaned
      · rw [bulkUpd_eq_pos _ _ _ c]
        have hnrep : (s.reports.get ⟨i, h1⟩).status ≠ RStatus.reported :=
          hinv.refNotRep a hamem _ (List.get_mem _ _ _) c.1
        rcases hst : (s.reports.get ⟨i, h1⟩).status with _ | _ | _
        · exact absurd hst hnrep
        · exact Or.inr (Or.inr ⟨rfl, rfl⟩)
        · exact absurd hst c.2
      · rw [bulkUpd_eq_self _ _ _ c]
        exact Or.inl rfl
    · refine ⟨by simp, ?_⟩
      intro i h1 h2
      have hg : ((s.assignments.map (confirmUpd aid s.now)).get ⟨i, h2⟩)
          = confirmUpd aid s.now (s.assignments.get ⟨i, h1⟩) := by
        simp [List.get_eq_getElem]
      rw [hg]
      by_cases c : (s.assignments.get ⟨i, h1⟩).id = aid ∧
          (s.assignments.get ⟨i, h1⟩).status = AStatus.solution_uploaded
      · rw [confirmUpd_eq_pos _ _ _ c.1 c.2, c.2]
        exact Or.inr (Or.inr ⟨rfl, rfl⟩)
      · rw [confirmUpd_eq_self _ _ _ c]
        exact Or.inl rfl
  · intro aid sd dr a ha hne
    unfold uploadSolution
    rw [ha]
    simp [hne]
  · intro aid a ha hne
    unfold confirmClean
    rw [ha]
    simp [hne]
  · intro aid sd dr s' sd' dr' hok
    obtain ⟨a, ha, hpend, hs'⟩ := uploadSolution_ok hok
    subst hs'
    have haid : a.id = aid := by
      have := List.find?_some ha
      simpa using this
    have hfind : (s.assignments.map (uploadUpd aid s.now)).find?
        (fun b => decide (b.id = aid)) = some (uploadUpd aid s.now a) := by
      rw [List.find?_map]
      have hcomp : ((fun b => decide (b.id = aid)) ∘ uploadUpd aid s.now)
          = (fun b => decide (b.id = aid)) := by
        funext b
        simp [Function.comp_apply, uploadUpd_id]
      rw [hcomp, ha]
      rfl
    have hst : (uploadUpd aid s.now a).status = AStatus.solution_uploaded := by
      rw [uploadUpd_eq_pos aid s.now a haid hpend]
    unfold uploadSolution
    rw [hfind]
    simp [hst]
  · intro aid s' hok
    obtain ⟨a, ha, hsol, hs'⟩ := confirmClean_ok hok
    subst hs'
    have haid : a.id = aid := by
      have := List.find?_some ha
      simpa using this
    have hfind : (s.assignments.map (confirmUpd aid s.now)).find?
        (fun b => decide (b.id = aid)) = some (confirmUpd aid s.now a) := by
      rw [List.find?_map]
      have hcomp : ((fun b => decide (b.id = aid)) ∘ confirmUpd aid s.now)
          = (fun b => decide (b.id = aid)) := by
        funext b
        simp [Function.comp_apply, confirmUpd_id]
      rw [hcomp, ha]
      rfl
    have hst : (confirmUpd aid s.now a).status = AStatus.cleaned := by
      rw [confirmUpd_eq_pos aid s.now a haid hsol]
    unfold confirmClean
    rw [hfind]
    simp [hst]
  · intro ids st i h1 h2 hcl
    have hg : ((applyBulkStatus s.reports ids st).1).get ⟨i, h2⟩
        = bulkUpd ids st (s.reports.get ⟨i, h1⟩) := by
      simp [applyBulkStatus, List.get_eq_getElem]
    rw [hg]
    exact bulkUpd_eq_self _ _ _ (fun c => c.2 hcl)

/-- C4 witness: the transition discipline holds at the concrete reachable
store holding one contaminated report and one pending assignment. -/
theorem transition_discipline_witness : TransitionDiscipline demoStore2 :=
  transition_discipline demoStore2 reachable_demoStore2

/-- C6: starting from a store whose `active` flags agree with the statuses,
every mutating operation (submit, escalate, uploadSolution, confirmClean,
applyBulkStatus) preserves `active == (status != cleaned)` for every report;
`confirmClean` leaves every referenced report `cleaned` with `active =
false`; and `listGroups` never includes a `cleaned` report in any group. -/
theorem active_flag_discipline (s : Store) (h : ReportsConsistent s) :
    ActiveFlagDiscipline s := by
  have hbulk : ∀ ids st, ∀ r ∈ (applyBulkStatus s.reports ids st).1,
      r.active = true ↔ r.status ≠ RStatus.cleaned := by
    intro ids st r hr
    rcases List.mem_map.mp hr with ⟨r0, hr0, rfl⟩
    by_cases c : r0.id ∈ ids ∧ r0.status ≠ RStatus.cleaned
    · rw [bulkUpd_eq_pos _ _ _ c]
      simp
    · rw [bulkUpd_eq_self _ _ _ c]
      exact h r0 hr0
  refine ⟨?_, ?_, ?_, hbulk, ?_, ?_⟩
  · intro p st lk d ln desc ch s' r hok
    obtain ⟨hm, hr, hs'⟩ := submit_ok hok
    subst hs'
    intro x hx
    rcases List.mem_append.mp hx with hx | hx
    · exact h x hx
    · simp only [List.mem_singleton] at hx
      subst hx
      simp [newReport]
  · intro key ids sev coords nts s' hok
    obtain ⟨hact, hval, hs'⟩ := escalate_ok hok
    subst hs'
    exact hbulk ids RStatus.contaminated
  · intro aid sd dr s' hok
    obtain ⟨a, ha, hpend, hs'⟩ := uploadSolution_ok hok
    subst hs'
    exact h
  · intro aid s' hok
    obtain ⟨a, ha, hsol, hs'⟩ := confirmClean_ok hok
    subst hs'
    refine ⟨hbulk _ _, ?_⟩
    intro a' hfind r hr hmem
    rw [ha] at hfind
    injection hfind with ha'
    subst ha'
    rcases List.mem_map.mp hr with ⟨r0, hr0, rfl⟩
    rw [bulkUpd_id] at hmem
    by_cases c : r0.status = RStatus.cleaned
    · rw [bulkUpd_eq_self _ _ _ (fun cc => cc.2 c)]
      refine ⟨c, ?_⟩
      have hiff := h r0 hr0
      cases hb : r0.active with
      | false => rfl
      | true => exact absurd c (hiff.mp hb)
    · rw [bulkUpd_eq_pos _ _ _ ⟨hmem, c⟩]
      exact ⟨rfl, rfl⟩
  · intro d g hg r hr
    simp only [listGroups, computeGroups] at hg
    rcases List.mem_map.mp hg with ⟨k, hk, rfl⟩
    rcases List.mem_filter.mp hr with ⟨hr2, _⟩
    rcases List.mem_filter.mp hr2 with ⟨_, hcond⟩
    simp only [Bool.and_eq_true, Bool.or_eq_true, decide_eq_true_eq] at hcond
    rcases hcond with ⟨hst | hst, _⟩ <;> simp [hst]

/-- C6 witness: the active-flag discipline holds at the concrete reachable
store holding one contaminated report and one pending assignment. -/
theorem active_flag_discipline_witness : ActiveFlagDiscipline demoStore2 :=
  active_flag_discipline demoStore2 (by unfold ReportsConsistent; decide)

theorem havA_symm (lat1 lon1 lat2 lon2 : Real) :
    havA lat1 lon1 lat2 lon2 = havA lat2 lon2 lat1 lon1 := by
  unfold havA toRad
  rw [show (lat1 - lat2) * (Real.pi / 180) / 2 =
        -((lat2 - lat1) * (Real.pi / 180) / 2) by ring,
      show (lon1 - lon2) * (Real.pi / 180) / 2 =
        -((lon2 - lon1) * (Real.pi / 180) / 2) by ring,
      Real.sin_neg, Real.sin_neg]
  ring

theorem havA_self (lat lon : Real) : havA lat lon lat lon = 0 := by
  unfold havA toRad
  simp

theorem atan2_zero_one : atan2 0 1 = 0 := by
  unfold atan2
  rw [if_pos (zero_lt_one : (0 : Real) < 1)]
  simp [Real.arctan_zero]

/-- C7: the haversine distance is symmetric, vanishes on identical points,
and puts two points one degree of latitude apart at a distance greater than
2 km, so such a pair is excluded at the default 2 km alert radius. -/
theorem haversine_props :
    (∀ lat1 lon1 lat2 lon2 : Real,
      haversine lat1 lon1 lat2 lon2 = haversine lat2 lon2 lat1 lon1) ∧
    (∀ lat lon : Real, haversine lat lon lat lon = 0) ∧
    (∀ lat lon : Real, 2 < haversine lat lon (lat + 1) lon) := by
  refine ⟨?_, ?_, ?_⟩
  · intro lat1 lon1 lat2 lon2
    unfold haversine
    rw [havA_symm]
  · intro lat lon
    unfold haversine
    rw [havA_self, Real.sqrt_zero, sub_zero, Real.sqrt_one, atan2_zero_one, mul_zero]
  · intro lat lon
    have hA : havA lat lon (lat + 1) lon = Real.sin (Real.pi / 360) ^ 2 := by
      unfold havA toRad
      rw [show (lat + 1 - lat) * (Real.pi / 180) / 2 = Real.pi / 360 by ring,
          show (lon - lon) * (Real.pi / 180) / 2 = 0 by ring]
      simp
    have hpi := Real.pi_pos
    have hθpos : 0 < Real.pi / 360 := by linarith
    have hθlt : Real.pi / 360 < Real.pi / 2 := by linarith
    have hsin : 0 ≤ Real.sin (Real.pi / 360) :=
      le_of_lt (Real.sin_pos_of_pos_of_lt_pi hθpos (by linarith))
    have hcos : 0 < Real.cos (Real.pi / 360) :=
      Real.cos_pos_of_mem_Ioo ⟨by linarith, hθlt⟩
    unfold haversine
    rw [hA, Real.sqrt_sq hsin,
        show (1 : Real) - Real.sin (Real.pi / 360) ^ 2 = Real.cos (Real.pi / 360) ^ 2 by
          have := Real.sin_sq_add_cos_sq (Real.pi / 360)
          linarith,
        Real.sqrt_sq (le_of_lt hcos)]
    have hatan : atan2 (Real.sin (Real.pi / 360)) (Real.cos (Real.pi / 360)) =
        Real.pi / 360 := by
      unfold atan2
      rw [if_pos hcos, ← Real.tan_eq_sin_div_cos,
          Real.arctan_tan (by linarith) hθlt]
    rw [hatan, show earthRadiusKm = (6371 : Real) from rfl]
    have hpi3 := Real.pi_gt_three
    linarith

theorem findNearby_mem_iff (ulat ulon radiusKm : Real) (l : List Assignment)
    (a : Assignment) :
    a ∈ findNearby ulat ulon radiusKm l ↔
      (a ∈ l ∧ a.status ≠ AStatus.cleaned ∧
        ∃ c, a.coordinates = some c ∧ haversine ulat ulon c.1 c.2 ≤ radiusKm) := by
  unfold findNearby
  rw [List.Perm.mem_iff (List.perm_insertionSort _ _), List.mem_filter]
  unfold nearbyFilter
  constructor
  · rintro ⟨hal, hcond⟩
    refine ⟨hal, ?_⟩
    rcases hc : a.coordinates with _ | c
    · rw [hc] at hcond
      simp at hcond
    · rw [hc] at hcond
      simp only [Bool.and_eq_true, decide_eq_true_eq] at hcond
      exact ⟨hcond.1, c, rfl, hcond.2⟩
  · rintro ⟨hal, hne, c, hc, hd⟩
    refine ⟨hal, ?_⟩
    rw [hc]
    simp only [Bool.and_eq_true, decide_eq_true_eq]
    exact ⟨hne, hd⟩

/-- C5: `findNearby` returns exactly the assignments that are not cleaned,
carry coordinates, and lie within the given haversine radius of the user,
sorted ascending by distance; and an assignment with null coordinates never
appears in a `getActiveAlertsNear` result, whatever the radius. -/
theorem proximity_query (ulat ulon radiusKm : Real) (l : List Assignment) (s : Store) :
    List.Sorted (distLe ulat ulon) (findNearby ulat ulon radiusKm l) ∧
    (∀ a : Assignment, a ∈ findNearby ulat ulon radiusKm l ↔
      (a ∈ l ∧ a.status ≠ AStatus.cleaned ∧
        ∃ c, a.coordinates = some c ∧ haversine ulat ulon c.1 c.2 ≤ radiusKm)) ∧
    (∀ res, getActiveAlertsNear s ulat ulon radiusKm = Except.ok res →
      ∀ a ∈ res, a.coordinates ≠ none) := by
  refine ⟨?_, findNearby_mem_iff ulat ulon radiusKm l, ?_⟩
  · unfold findNearby
    exact List.sorted_insertionSort _ _
  · intro res hres a hares
    unfold getActiveAlertsNear at hres
    split at hres
    · simp at hres
    · split at hres
      · simp at hres
      · injection hres with hres'
        subst hres'
        rcases (findNearby_mem_iff ulat ulon radiusKm s.assignments a).mp hares with
          ⟨_, _, c, hc, _⟩
        rw [hc]
        simp

/-- C10: `HotspotMap` renders one marker per hotspot regardless of status,
choosing the red contaminated icon exactly when `isActive` is truthy and the
green clean icon otherwise, so cleaned hotspots stay visible on the map. -/
theorem hotspot_markers_total (hs : List Hotspot) :
    (hotspotMarkers hs).length = hs.length ∧
    (∀ h ∈ hs,
      (h, if h.isActive then MarkerIcon.contaminatedRed else MarkerIcon.cleanGreen) ∈
        hotspotMarkers hs) ∧
    (∀ hm ∈ hotspotMarkers hs,
      (hm.2 = MarkerIcon.contaminatedRed ↔ hm.1.isActive = true) ∧
      (hm.2 = MarkerIcon.cleanGreen ↔ hm.1.isActive = false)) := by
  refine ⟨by simp [hotspotMarkers], ?_, ?_⟩
  · intro h hh
    exact List.mem_map.mpr ⟨h, hh, rfl⟩
  · intro hm hhm
    rcases List.mem_map.mp hhm with ⟨h, _, rfl⟩
    cases hb : h.isActive <;> simp [hb]

end CleanWater
